import Mathlib

/-!
Shallow embedding of the docker-e2e test harness: the virsh machine
driver of the `machines` package (`NewVirshMachines`, `cloneDisk`,
`define`, `Start`, `Remove`, `MachineSSH`), the swarm bootstrap of the
`create` command, and the convergence poller.  Effectful collaborators
(filesystem, subprocess execution, the engine API) are modelled by
explicit oracle records; each Go function becomes a pure Lean function
over those oracles returning its result together with the externally
visible effects (issued hypervisor commands, removal calls, engine-API
calls).
-/

/-- Error values: a Go `error` is modelled by its message string. -/
abbrev Err := String

/-- Model of Go `path.Dir`: the part of the path before the final
slash, `.` when there is no slash, `/` for a path directly under the
root. -/
def dirOf (s : String) : String :=
  match s.data.reverse.dropWhile (fun c => c ≠ '/') with
  | [] => "."
  | _ :: rest => if rest.isEmpty then "/" else String.mk rest.reverse

/-- Model of Go `filepath.Join` for the two-component joins the source
performs. -/
def joinPath (d f : String) : String :=
  if d = "" then f else d ++ "/" ++ f

/-- Uppercase hexadecimal digit characters, as produced by the Go verb
used in the machine-name format. -/
def hexDigitChar : Nat → Char
  | 0 => '0' | 1 => '1' | 2 => '2' | 3 => '3' | 4 => '4'
  | 5 => '5' | 6 => '6' | 7 => '7' | 8 => '8' | 9 => '9'
  | 10 => 'A' | 11 => 'B' | 12 => 'C' | 13 => 'D' | 14 => 'E'
  | _ => 'F'

/-- Decimal digit characters, as produced by the Go decimal verb. -/
def decDigitChar : Nat → Char
  | 0 => '0' | 1 => '1' | 2 => '2' | 3 => '3' | 4 => '4'
  | 5 => '5' | 6 => '6' | 7 => '7' | 8 => '8' | _ => '9'

/-- Digit string of `n` in base `b` through the digit map `f`, most
significant digit first; `0` renders as the single digit `f 0`,
matching Go number formatting. -/
def natChars (b : Nat) (f : Nat → Char) (n : Nat) : List Char :=
  if n = 0 then [f 0] else ((Nat.digits b n).map f).reverse

/-- Uppercase hexadecimal rendering of a natural number. -/
def hexUpper (n : Nat) : String := String.mk (natChars 16 hexDigitChar n)

/-- Decimal rendering of a natural number. -/
def decRepr (n : Nat) : String := String.mk (natChars 10 decDigitChar n)

/-- The `VirshMachine` record of the `machines` package.  The TLS
configuration is reduced to a flag recording that it was installed. -/
structure VirshMachine where
  MachineName : String
  dockerHost : String := ""
  sshKeyPath : String := ""
  sshUser : String := ""
  ip : String := ""
  internalip : String := ""
  BaseDisk : String := ""
  DiskPath : String := ""
  CPUCount : Nat := 0
  Memory : Nat := 0
  tlsConfigured : Bool := false
  deriving DecidableEq, Repr

/-- Externally visible subprocess commands issued by the virsh driver. -/
inductive HvCmd where
  | qemuImgCreate (baseDisk clonePath : String)
  | virshDefine (file : String)
  | virshStart (name : String)
  | virshShutdown (name : String)
  | virshDestroy (name : String)
  | virshUndefine (name : String)
  | virshDomifaddr (name : String)
  | sshRun (commandStr : String)
  deriving DecidableEq, Repr

/-- Derived name of the copy-on-write clone used by `cloneDisk`. -/
def linkedCloneName (m : VirshMachine) : String :=
  joinPath (dirOf m.BaseDisk) (m.MachineName ++ ".qcow2")

/-- Oracle for `cloneDisk`: whether the stat of the derived clone path
succeeds (the clone file already exists), and the outcome of the
`qemu-img create` subprocess. -/
structure CloneEnv where
  cloneExists : Bool
  qemuImgErr : Option Err := none

/-- The `cloneDisk` method: returns the updated machine, the error, and
the subprocess commands issued.  When a same-named clone already exists
it fails before issuing the clone command and leaves the machine
untouched; otherwise it issues the clone command and on success stores
the clone path in `DiskPath`. -/
def cloneDisk (m : VirshMachine) (env : CloneEnv) :
    VirshMachine × Option Err × List HvCmd :=
  let lcn := linkedCloneName m
  if env.cloneExists then
    (m, some ("Linked clone " ++ lcn ++ " of base disk " ++ m.BaseDisk ++
      " already exists!"), [])
  else
    match env.qemuImgErr with
    | some e =>
      (m, some ("Failed to create linked clone " ++ lcn ++ " on " ++
        m.BaseDisk ++ ": " ++ e), [.qemuImgCreate m.BaseDisk lcn])
    | none => ({ m with DiskPath := lcn }, none, [.qemuImgCreate m.BaseDisk lcn])

/-- Possible outcomes of the descriptor write inside `define`: success,
failure before the file is created (open fails), or failure after the
file has been created (the write itself fails, leaving a partial
file). -/
inductive WriteOutcome where
  | ok
  | failNoFile
  | failDirty
  deriving DecidableEq, Repr

/-- Oracle for `define`: outcome of template parse/execute, of the
descriptor file write, of the `virsh define` subprocess, and the
filesystem contents before the call. -/
structure DefineEnv where
  tmplErr : Option Err := none
  writeOutcome : WriteOutcome := .ok
  writeErrMsg : Err := "write failed"
  virshDefineErr : Option Err := none
  fs : String → Bool

/-- Path of the rendered domain descriptor file written by `define`. -/
def defFilePath (m : VirshMachine) : String :=
  joinPath (dirOf m.DiskPath) (m.MachineName ++ ".xml")

/-- The `define` method: renders the domain descriptor, writes it to
the descriptor path, registers it with `virsh define`, and removes the
file on return via a deferred removal that the source installs only
after the write has returned without error.  Returns the error, the
filesystem after return, and the commands issued. -/
def define (m : VirshMachine) (env : DefineEnv) :
    Option Err × (String → Bool) × List HvCmd :=
  match env.tmplErr with
  | some e => (some e, env.fs, [])
  | none =>
    let df := defFilePath m
    match env.writeOutcome with
    | .failNoFile => (some env.writeErrMsg, env.fs, [])
    | .failDirty => (some env.writeErrMsg, fun p => p = df || env.fs p, [])
    | .ok =>
      let fsAfter : String → Bool := fun p => if p = df then false else env.fs p
      match env.virshDefineErr with
      | some e =>
        (some ("Failed to create " ++ m.MachineName ++ ": " ++ e), fsAfter,
          [.virshDefine df])
      | none => (none, fsAfter, [.virshDefine df])

/-- Oracle for `Start`: outcome of the `virsh start` subprocess, the
number of address polls and shell polls the background routine issues,
the parsed address, and whether the 60-second timer fired before both
polling phases completed. -/
structure StartEnv where
  virshStartErr : Option Err := none
  ipPolls : Nat := 0
  sshPolls : Nat := 0
  ipFound : String := ""
  timedOut : Bool := false

/-- The `Start` method: issues `virsh start`, then polls the domain
address list at one-second intervals until an address parses, then
polls shell reachability until it answers; a 60-second timer bounds
both phases, and on expiry the timer branch of the select returns a
timeout error without issuing any further command. -/
def Start (m : VirshMachine) (env : StartEnv) :
    (VirshMachine × Option Err) × List HvCmd :=
  match env.virshStartErr with
  | some e => ((m, some e), [.virshStart m.MachineName])
  | none =>
    let cmds := HvCmd.virshStart m.MachineName ::
      (List.replicate env.ipPolls (HvCmd.virshDomifaddr m.MachineName) ++
        List.replicate env.sshPolls (HvCmd.sshRun "uptime"))
    if env.timedOut then
      ((m, some ("Unable to verify docker engine on " ++ m.MachineName ++
        " within timeout")), cmds)
    else
      let m2 := { m with ip := env.ipFound, internalip := env.ipFound,
                         dockerHost := "tcp://" ++ env.ipFound ++ ":2376" }
      ((m2, none), cmds)

/-- Whether a command stops or unregisters the named domain. -/
def isTeardownCmd : HvCmd → Bool
  | .virshShutdown _ => true
  | .virshDestroy _ => true
  | .virshUndefine _ => true
  | _ => false

/-- Domain power state after a command sequence is replayed against the
hypervisor. -/
def runningAfter (name : String) : List HvCmd → Bool → Bool
  | [], r => r
  | c :: cs, r =>
    runningAfter name cs
      (match c with
       | .virshStart n => if n = name then true else r
       | .virshShutdown n => if n = name then false else r
       | .virshDestroy n => if n = name then false else r
       | _ => r)

/-- Result of a combined-output subprocess run: the interleaved
stdout and stderr text plus the process exit status. -/
structure ExecResult where
  output : String
  status : Nat

/-- Error returned by a combined-output run for a non-zero exit
status. -/
def combinedOutputErr (r : ExecResult) : Option Err :=
  if r.status = 0 then none else some ("exit status " ++ decRepr r.status)

/-- The `MachineSSH` method: runs the remote command and returns the
whitespace-trimmed combined output together with the subprocess
error. -/
def MachineSSH (m : VirshMachine) (r : ExecResult) : String × Option Err :=
  (r.output.trim, combinedOutputErr r)

/-- Declared default of the `VirshDiskDir` package variable. -/
def VirshDiskDirDefault : String := "/e2e"

/-- The package-init assignment to `VirshDiskDir`: the environment
value is assigned unconditionally, unlike `VirshOS` which keeps its
default when the variable is empty. -/
def initVirshDiskDir (env : String → String) : String :=
  env "VIRSH_DISK_DIR"

/-- Declared default of the `VirshOS` package variable. -/
def VirshOSDefault : String := "ubuntu16.04"

/-- The package-init assignment to `VirshOS`, guarded against an empty
environment value. -/
def initVirshOS (env : String → String) : String :=
  if env "VIRSH_OS" = "" then VirshOSDefault else env "VIRSH_OS"

/-- Machine name format of the batch-creation loop: prefix, dash,
uppercase-hex batch identifier, dash, decimal index.  The prefix
constant lives in a `machines` package file outside the analyzed
source, so it is a parameter here. -/
def machineName (pre : String) (id idx : Nat) : String :=
  pre ++ "-" ++ hexUpper id ++ "-" ++ decRepr idx

/-- Names of a batch of `n` machines sharing the identifier `id`. -/
def batchNames (pre : String) (id n : Nat) : List String :=
  (List.range n).map (machineName pre id)

/-- Oracle for `NewVirshMachines`: configuration state, the random
batch identifier, per-index outcomes of the serialized creation steps,
per-index readiness-verification outcomes, the task-completion order
observed on the buffered error channel, per-name removal outcomes, and
whether the one-hour batch timer fired before a result was
delivered. -/
structure OrchOracle where
  diskDir : String
  virshOS : String := "ubuntu16.04"
  namePre : String := "virsh"
  statBaseOK : Bool := true
  batchId : Nat := 0
  cloneErr : Nat → Option Err := fun _ => none
  defineErr : Nat → Option Err := fun _ => none
  startErr : Nat → Option Err := fun _ => none
  tlsErr : Nat → Option Err := fun _ => none
  caErr : Nat → Option Err := fun _ => none
  verify : Nat → Option Err := fun _ => none
  order : List Nat := []
  removeErr : String → Option Err := fun _ => none
  timedOut : Bool := false

/-- Path of the base OS disk checked by the precondition stat. -/
def baseOSPath (o : OrchOracle) : String :=
  joinPath o.diskDir (o.virshOS ++ ".qcow2")

/-- First error among the five serialized per-machine creation steps
(clone, define, start, TLS key-pair load, CA read), in source order. -/
def stepErr (o : OrchOracle) (i : Nat) : Option Err :=
  match o.cloneErr i with
  | some e => some e
  | none =>
    match o.defineErr i with
    | some e => some e
    | none =>
      match o.startErr i with
      | some e => some e
      | none =>
        match o.tlsErr i with
        | some e => some e
        | none => o.caErr i

/-- State of machine `idx` after its serialized creation steps all
succeed: name derived from the batch identifier, disk path set by
`cloneDisk`, TLS installed.  The address fields set by `Start` are
abstracted away since no claim depends on them. -/
def mkMachine (o : OrchOracle) (idx : Nat) : VirshMachine :=
  let name := machineName o.namePre o.batchId idx
  { MachineName := name
    BaseDisk := baseOSPath o
    DiskPath := joinPath (dirOf (baseOSPath o)) (name ++ ".qcow2")
    CPUCount := 1
    Memory := 2048
    sshUser := "docker"
    sshKeyPath := joinPath o.diskDir "id_rsa"
    tlsConfigured := true }

/-- The serialized clone/define/start loop of `NewVirshMachines`: the
first failing step aborts the batch immediately, otherwise the list of
created machines is returned. -/
def createSeqFrom (o : OrchOracle) (idx : Nat) : Nat → Except Err (List VirshMachine)
  | 0 => .ok []
  | r + 1 =>
    match stepErr o idx with
    | some e => .error e
    | none =>
      match createSeqFrom o (idx + 1) r with
      | .error e => .error e
      | .ok rest => .ok (mkMachine o idx :: rest)

/-- Observable events of the rollback phase. -/
inductive OrchEvent where
  | removeCall (name : String)
  | removeFailedLog (name : String) (e : Err)
  deriving DecidableEq, Repr

/-- Rollback loop of `NewVirshMachines`: the removal method is called
on every machine of the batch; a failing removal logs inside the
removal method and its returned error is discarded by the loop. -/
def removeAll (o : OrchOracle) (ms : List VirshMachine) : List OrchEvent :=
  ms.flatMap fun m =>
    OrchEvent.removeCall m.MachineName ::
      (match o.removeErr m.MachineName with
       | some e => [OrchEvent.removeFailedLog m.MachineName e]
       | none => [])

/-- First present error among the channel arrivals, as found by the
range loop over the closed buffered channel. -/
def firstSome : List (Option Err) → Option Err
  | [] => none
  | some e :: _ => some e
  | none :: rest => firstSome rest

/-- Readiness-verification results on the buffered channel, in
task-completion order. -/
def arrivals (o : OrchOracle) : List (Option Err) := o.order.map o.verify

/-- Body of the creation goroutine of `NewVirshMachines`: serialized
creation, parallel readiness verification collected on the buffered
channel, rollback of the whole batch on the first observed readiness
error. -/
def createGoroutine (o : OrchOracle) (n : Nat) :
    Except Err (List VirshMachine) × List OrchEvent :=
  match createSeqFrom o 0 n with
  | .error e => (.error e, [])
  | .ok ms =>
    match firstSome (arrivals o) with
    | some e => (.error e, removeAll o ms)
    | none => (.ok ms, [])

/-- Error returned when the disk directory is not configured (message
kept verbatim from the source, including its typo). -/
def missingDiskDirMsg : Err :=
  "To use the vrish driver, you must set VIRSH_DISK_DIR to point to where your base OS disks and ssh key live"

/-- The `NewVirshMachines` entry point: precondition checks, the
creation goroutine, and the select between its result channels and the
one-hour batch timer.  Returns the (linux, windows) machine lists or an
error, together with the observable rollback events. -/
def NewVirshMachines (o : OrchOracle) (linuxCount windowsCount : Nat) :
    Except Err (List VirshMachine × List VirshMachine) × List OrchEvent :=
  if o.diskDir = "" then (.error missingDiskDirMsg, [])
  else if windowsCount ≠ 0 then (.error "Windows not yet supported for virsh", [])
  else if o.statBaseOK = false then
    (.error ("Unable to locate " ++ baseOSPath o), [])
  else
    let res := createGoroutine o linuxCount
    if o.timedOut then
      (.error ("Unable to create " ++ decRepr linuxCount ++ " machines within timeout"), res.2)
    else
      match res.1 with
      | .error e => (.error e, res.2)
      | .ok ms => (.ok (ms, []), res.2)

/-- Oracle for the swarm bootstrap: per-machine engine-API client
construction outcomes (indexed by position in the machine list), the
outcomes of the three leader calls, the snapshot the leader returns,
and per-machine join outcomes. -/
structure BootstrapEnv where
  engineAPIErr : Nat → Option Err := fun _ => none
  swarmInitErr : Option Err := none
  inspectErr : Option Err := none
  infoErr : Option Err := none
  workerToken : String
  remoteManagerAddr : String
  joinErr : Nat → Option Err := fun _ => none

/-- Engine-API calls issued by the bootstrap, carrying their
arguments. -/
inductive SwarmCall where
  | swarmInit (machine listenAddr advertiseAddr : String)
  | swarmInspect (machine : String)
  | engineInfo (machine : String)
  | swarmJoin (machine listenAddr : String) (remoteAddrs : List String) (token : String)
  deriving DecidableEq, Repr

/-- The worker-join loop of the `create` command: strictly sequential,
each join carrying the same token and remote-manager address snapshot;
the first failure aborts the loop. -/
def joinLoop (env : BootstrapEnv) (listenAddr token addr : String) :
    Nat → List VirshMachine → Option Err × List SwarmCall
  | _, [] => (none, [])
  | idx, m :: rest =>
    match env.engineAPIErr idx with
    | some e => (some e, [])
    | none =>
      let call := SwarmCall.swarmJoin m.MachineName listenAddr [addr] token
      match env.joinErr idx with
      | some e => (some e, [call])
      | none =>
        let next := joinLoop env listenAddr token addr (idx + 1) rest
        (next.1, call :: next.2)

/-- The swarm bootstrap of the `create` command: initialize the swarm
on the first machine advertising its internal address, fetch the join
token and the remote-manager address once, then join every remaining
machine sequentially with that snapshot. -/
def bootstrapSwarm (env : BootstrapEnv) (ms : List VirshMachine)
    (listenAddr : String) : Option Err × List SwarmCall :=
  match ms with
  | [] => (some "index out of range", [])
  | m0 :: rest =>
    match env.engineAPIErr 0 with
    | some e => (some e, [])
    | none =>
      let initCall := SwarmCall.swarmInit m0.MachineName listenAddr m0.internalip
      match env.swarmInitErr with
      | some e => (some e, [initCall])
      | none =>
        match env.inspectErr with
        | some e => (some e, [initCall, .swarmInspect m0.MachineName])
        | none =>
          match env.infoErr with
          | some e =>
            (some e, [initCall, .swarmInspect m0.MachineName, .engineInfo m0.MachineName])
          | none =>
            let joins := joinLoop env listenAddr env.workerToken env.remoteManagerAddr 1 rest
            (joins.1, initCall :: .swarmInspect m0.MachineName ::
              .engineInfo m0.MachineName :: joins.2)

/-- Errors returned by the convergence poller: the cancellation error
of the expired deadline, or the last predicate error. -/
inductive PollErr where
  | canceled
  | predFailed (msg : Err)
  deriving DecidableEq, Repr

/-- Error reported when the deadline fires, given the last predicate
error if any call has happened. -/
def deadlineErr : Option Err → PollErr
  | some e => .predFailed e
  | none => .canceled

/-- Modelled from the spec: the convergence poller (`WaitForConverge`,
the generic `awaitConverge` primitive) is called by the analyzed source
but implemented in a package file outside it.  Per the spec it
re-invokes a zero-argument predicate at a fixed interval until success
or until the deadline fires, at which point it returns the cancellation
error or the last predicate error.  Time is discrete: call `k`
(0-based) happens at time `k * interval` provided that time is before
`deadline`.  The `fuel` argument only bounds the recursion; it is never
exhausted when `interval ≥ 1` and `fuel > deadline - t`. -/
def waitGo (p : Nat → Option Err) (interval deadline : Nat) :
    Nat → Nat → Nat → Option Err → Except PollErr Nat
  | 0, _, _, lastErr => .error (deadlineErr lastErr)
  | fuel + 1, t, call, lastErr =>
    if t < deadline then
      match p call with
      | none => .ok t
      | some e => waitGo p interval deadline fuel (t + interval) (call + 1) (some e)
    else .error (deadlineErr lastErr)

/-- Modelled from the spec: the convergence poller entry point; on
success it returns the time at which the successful predicate call was
made. -/
def WaitForConverge (p : Nat → Option Err) (interval deadline : Nat) :
    Except PollErr Nat :=
  waitGo p interval deadline (deadline + 1) 0 0 none

/-- Recognizer for swarm-initialize calls. -/
def isInitCall : SwarmCall → Bool
  | .swarmInit _ _ _ => true
  | _ => false

/-- Recognizer for swarm-join calls. -/
def isJoinCall : SwarmCall → Bool
  | .swarmJoin _ _ _ _ => true
  | _ => false

/-- Number of swarm-initialize calls in a trace. -/
def countInitCalls (l : List SwarmCall) : Nat := (l.filter isInitCall).length

/-- Number of swarm-join calls in a trace. -/
def countJoinCalls (l : List SwarmCall) : Nat := (l.filter isJoinCall).length

/-- Concrete machine used to instantiate the clone-disk claim. -/
def c5m : VirshMachine :=
  { MachineName := "e2e-0-0", BaseDisk := "/e2e/ubuntu16.04.qcow2" }

/-- Concrete machine used to instantiate the define claim. -/
def c6m : VirshMachine :=
  { MachineName := "e2e-A-0", BaseDisk := "/e2e/ubuntu16.04.qcow2",
    DiskPath := "/e2e/e2e-A-0.qcow2" }

/-- Define oracle in which the descriptor write fails after creating
the file, over an initially clean filesystem. -/
def c6env : DefineEnv := { writeOutcome := .failDirty, fs := fun _ => false }

/-- Define oracle for the success path over a clean filesystem. -/
def c6envOK : DefineEnv := { fs := fun _ => false }

/-- Concrete machine used to instantiate the start-timeout claim. -/
def c7m : VirshMachine := { MachineName := "e2e-0-1" }

/-- Start oracle in which the 60-second timer fires after some polling
of both phases. -/
def c7env : StartEnv := { ipPolls := 3, sshPolls := 2, timedOut := true }

/-- Concrete subprocess result with a non-zero exit status. -/
def c9r : ExecResult := { output := "  up 1 day  ", status := 1 }

/-- Orchestrator oracle for a successful singleton batch. -/
def c1o : OrchOracle := { diskDir := "/e2e", order := [0] }

/-- Orchestrator oracle for a batch of two in which the second
readiness verification fails and the first machine's removal fails. -/
def c2o : OrchOracle :=
  { diskDir := "/e2e"
    order := [0, 1]
    verify := fun i => if i = 1 then some "boom" else none
    removeErr := fun nm => if nm = machineName "virsh" 0 0 then some "undefine failed" else none }

/-- Orchestrator oracle whose disk directory comes from an unset
environment variable. -/
def c10o : OrchOracle := { diskDir := "" }

/-- Bootstrap oracle in which every engine call succeeds. -/
def c3env : BootstrapEnv := { workerToken := "tok", remoteManagerAddr := "10.0.0.1:2377" }

/-- Concrete leader machine for the bootstrap claim. -/
def c3m0 : VirshMachine := { MachineName := "m0", internalip := "10.0.0.1" }

/-- Concrete worker machines for the bootstrap claim. -/
def c3rest : List VirshMachine := [{ MachineName := "m1" }, { MachineName := "m2" }]

/-- Predicate that fails on its first two invocations and succeeds on
the third. -/
def c4p : Nat → Option Err := fun k => if k < 2 then some "not yet" else none

theorem runningAfter_true_of_no_teardown (name : String) :
    ∀ l : List HvCmd, (∀ c ∈ l, isTeardownCmd c = false) →
      runningAfter name l true = true := by
  intro l
  induction l with
  | nil => intro _; rfl
  | cons c cs ih =>
    intro h
    have hc := h c (List.mem_cons_self c cs)
    have hcs := fun x hx => h x (List.mem_cons_of_mem c hx)
    cases c with
    | virshStart n =>
      show runningAfter name cs (if n = name then true else true) = true
      rw [ite_self]; exact ih hcs
    | virshShutdown n => simp [isTeardownCmd] at hc
    | virshDestroy n => simp [isTeardownCmd] at hc
    | virshUndefine n => simp [isTeardownCmd] at hc
    | qemuImgCreate a b => exact ih hcs
    | virshDefine f => exact ih hcs
    | virshDomifaddr n => exact ih hcs
    | sshRun s => exact ih hcs

/-- C5: `cloneDisk` returns an error whenever a clone file with the
same derived name already exists, and in that case the machine's
`DiskPath` field is left unchanged and the clone command is never
issued. -/
theorem cloneDisk_existing_noop (m : VirshMachine) (env : CloneEnv)
    (h : env.cloneExists = true) :
    (cloneDisk m env).2.1.isSome = true
    ∧ (cloneDisk m env).1.DiskPath = m.DiskPath
    ∧ (cloneDisk m env).2.2 = [] := by
  simp [cloneDisk, h]

theorem cloneDisk_existing_noop_witness :
    (cloneDisk c5m { cloneExists := true }).2.1.isSome = true
    ∧ (cloneDisk c5m { cloneExists := true }).1.DiskPath = c5m.DiskPath
    ∧ (cloneDisk c5m { cloneExists := true }).2.2 = [] :=
  cloneDisk_existing_noop c5m { cloneExists := true } rfl

/-- C6 counterexample: when the descriptor write fails after having
created the file, `define` returns an error but the rendered descriptor
file remains on disk, so the claim that no exit path leaves the file is
false on the descriptor-write-failure path. -/
theorem define_failed_write_file_remains :
    (∀ p, c6env.fs p = false)
    ∧ (define c6m c6env).1.isSome = true
    ∧ (define c6m c6env).2.1 (defFilePath c6m) = true := by
  refine ⟨fun p => rfl, rfl, ?_⟩
  simp [define, c6env]

/-- C6 amended: on the success, template-failure, write-failure-without-
file-creation, and hypervisor-registration-failure exit paths the
rendered descriptor file does not remain on disk; only a descriptor
write that fails after creating the file escapes the cleanup, because
the deferred removal is installed after the write error check. -/
theorem define_removes_descriptor (m : VirshMachine) (env : DefineEnv)
    (hfresh : env.fs (defFilePath m) = false)
    (hw : env.writeOutcome ≠ WriteOutcome.failDirty) :
    (define m env).2.1 (defFilePath m) = false := by
  unfold define
  cases htm : env.tmplErr with
  | some e => simpa using hfresh
  | none =>
    cases hwo : env.writeOutcome with
    | ok => cases hde : env.virshDefineErr <;> simp
    | failNoFile => simpa using hfresh
    | failDirty => exact absurd hwo hw

theorem define_removes_descriptor_witness :
    (define c6m c6envOK).2.1 (defFilePath c6m) = false :=
  define_removes_descriptor c6m c6envOK rfl (by decide)

/-- C7: when `Start`'s two polling phases do not complete within the
60-second timer, `Start` returns the timeout error, has issued no
shutdown, destroy, or undefine command, and the replay of the commands
it issued leaves the domain running. -/
theorem Start_timeout_leaves_running (m : VirshMachine) (env : StartEnv)
    (hok : env.virshStartErr = none) (ht : env.timedOut = true) :
    (Start m env).1.2 = some ("Unable to verify docker engine on " ++
      m.MachineName ++ " within timeout")
    ∧ (∀ c ∈ (Start m env).2, isTeardownCmd c = false)
    ∧ runningAfter m.MachineName (Start m env).2 false = true := by
  have hnt : ∀ c ∈ (List.replicate env.ipPolls (HvCmd.virshDomifaddr m.MachineName) ++
      List.replicate env.sshPolls (HvCmd.sshRun "uptime")), isTeardownCmd c = false := by
    intro c hc
    rcases List.mem_append.mp hc with h1 | h1
    · rw [List.eq_of_mem_replicate h1]; rfl
    · rw [List.eq_of_mem_replicate h1]; rfl
  refine ⟨?_, ?_, ?_⟩
  · simp [Start, hok, ht]
  · intro c hc
    simp only [Start, hok, ht, if_true] at hc
    rcases List.mem_cons.mp hc with h1 | h1
    · rw [h1]; rfl
    · exact hnt c h1
  · simp only [Start, hok, ht, if_true]
    show runningAfter m.MachineName _ (if m.MachineName = m.MachineName then true else false) = true
    rw [if_pos rfl]
    exact runningAfter_true_of_no_teardown m.MachineName _ hnt

theorem Start_timeout_leaves_running_witness :
    (Start c7m c7env).1.2 = some ("Unable to verify docker engine on " ++
      c7m.MachineName ++ " within timeout")
    ∧ (∀ c ∈ (Start c7m c7env).2, isTeardownCmd c = false)
    ∧ runningAfter c7m.MachineName (Start c7m c7env).2 false = true :=
  Start_timeout_leaves_running c7m c7env rfl rfl

/-- C9: `MachineSSH` always returns the whitespace-trimmed combined
output of the remote command, and when the remote command exits with a
non-zero status it returns the error alongside that trimmed output. -/
theorem MachineSSH_trimmed_output (m : VirshMachine) (r : ExecResult) :
    (MachineSSH m r).1 = r.output.trim
    ∧ (r.status = 0 → (MachineSSH m r).2 = none)
    ∧ (r.status ≠ 0 →
        MachineSSH m r = (r.output.trim, some ("exit status " ++ decRepr r.status))) := by
  refine ⟨rfl, fun h => ?_, fun h => ?_⟩
  · simp [MachineSSH, combinedOutputErr, h]
  · simp [MachineSSH, combinedOutputErr, h]

theorem MachineSSH_trimmed_output_witness :
    (MachineSSH c7m c9r).1 = c9r.output.trim
    ∧ (c9r.status = 0 → (MachineSSH c7m c9r).2 = none)
    ∧ (c9r.status ≠ 0 →
        MachineSSH c7m c9r = (c9r.output.trim, some ("exit status " ++ decRepr c9r.status))) :=
  MachineSSH_trimmed_output c7m c9r

/-- C10: when the disk-directory environment variable is unset, package
initialization overwrites the declared default with the empty string,
and `NewVirshMachines` then returns the missing-configuration error for
every input. -/
theorem virshDiskDir_default_unusable (envv : String → String) (o : OrchOracle)
    (h : envv "VIRSH_DISK_DIR" = "")
    (ho : o.diskDir = initVirshDiskDir envv) :
    initVirshDiskDir envv ≠ VirshDiskDirDefault
    ∧ ∀ linuxCount windowsCount,
        (NewVirshMachines o linuxCount windowsCount).1 = .error missingDiskDirMsg := by
  have hd : o.diskDir = "" := by rw [ho, initVirshDiskDir, h]
  refine ⟨?_, fun lc wc => ?_⟩
  · rw [initVirshDiskDir, h]
    intro hcontra
    exact absurd hcontra (by decide)
  · simp [NewVirshMachines, hd]

theorem virshDiskDir_default_unusable_witness :
    initVirshDiskDir (fun _ => "") ≠ VirshDiskDirDefault
    ∧ ∀ linuxCount windowsCount,
        (NewVirshMachines c10o linuxCount windowsCount).1 = .error missingDiskDirMsg :=
  virshDiskDir_default_unusable (fun _ => "") c10o rfl rfl

theorem createSeqFrom_ok_length (o : OrchOracle) :
    ∀ r idx ms, createSeqFrom o idx r = .ok ms → ms.length = r := by
  intro r
  induction r with
  | zero =>
    intro idx ms h
    simp only [createSeqFrom, Except.ok.injEq] at h
    rw [← h]; rfl
  | succ r ih =>
    intro idx ms h
    simp only [createSeqFrom] at h
    cases hse : stepErr o idx with
    | some e => rw [hse] at h; cases h
    | none =>
      rw [hse] at h
      cases hrec : createSeqFrom o (idx + 1) r with
      | error e => rw [hrec] at h; cases h
      | ok rest =>
        rw [hrec] at h
        cases h
        simp [ih (idx + 1) rest hrec]

theorem createSeqFrom_ok_of_no_err (o : OrchOracle) :
    ∀ r idx, (∀ j, j < r → stepErr o (idx + j) = none) →
      createSeqFrom o idx r = .ok ((List.range r).map fun j => mkMachine o (idx + j)) := by
  intro r
  induction r with
  | zero => intro idx _; rfl
  | succ r ih =>
    intro idx h
    have h0 : stepErr o idx = none := by simpa using h 0 (Nat.succ_pos r)
    have hr := ih (idx + 1) (fun j hj => by
      have := h (j + 1) (by omega)
      rwa [show idx + (j + 1) = idx + 1 + j by omega] at this)
    simp only [createSeqFrom, h0, hr, Except.ok.injEq]
    rw [List.range_succ_eq_map]
    simp only [List.map_cons, List.map_map, Nat.add_zero, List.cons.injEq]
    refine ⟨trivial, ?_⟩
    apply List.map_congr_left
    intro j _
    simp only [Function.comp_apply]
    congr 1
    omega

theorem createSeq_ok_all (o : OrchOracle) (n : Nat)
    (h : ∀ j, j < n → stepErr o j = none) :
    createSeqFrom o 0 n = .ok ((List.range n).map (mkMachine o)) := by
  have := createSeqFrom_ok_of_no_err o n 0 (fun j hj => by simpa using h j hj)
  simpa using this

theorem createGoroutine_ok_seq (o : OrchOracle) (n : Nat) (ms : List VirshMachine)
    (h : (createGoroutine o n).1 = .ok ms) : createSeqFrom o 0 n = .ok ms := by
  unfold createGoroutine at h
  cases h1 : createSeqFrom o 0 n with
  | error e => rw [h1] at h; cases h
  | ok ms0 =>
    rw [h1] at h
    cases h2 : firstSome (arrivals o) with
    | some e => rw [h2] at h; cases h
    | none => rw [h2] at h; cases h; rfl

theorem mem_removeAll_call (o : OrchOracle) (ms : List VirshMachine) (m : VirshMachine)
    (hm : m ∈ ms) : OrchEvent.removeCall m.MachineName ∈ removeAll o ms := by
  unfold removeAll
  exact List.mem_flatMap.mpr ⟨m, hm, List.mem_cons_self _ _⟩

theorem mem_removeAll_log (o : OrchOracle) (ms : List VirshMachine) (m : VirshMachine)
    (er : Err) (hm : m ∈ ms) (he : o.removeErr m.MachineName = some er) :
    OrchEvent.removeFailedLog m.MachineName er ∈ removeAll o ms := by
  unfold removeAll
  refine List.mem_flatMap.mpr ⟨m, hm, ?_⟩
  rw [he]
  simp

theorem stepErr_update_removeErr (o : OrchOracle) (rE : String → Option Err) (i : Nat) :
    stepErr { o with removeErr := rE } i = stepErr o i := rfl

theorem arrivals_update_removeErr (o : OrchOracle) (rE : String → Option Err) :
    arrivals { o with removeErr := rE } = arrivals o := rfl

/-- C1: for every requested count of at least one, `NewVirshMachines`
returns either exactly that many machines (and an empty windows list)
with no error, or an error with no machines — never a partial set. -/
theorem NewVirshMachines_all_or_nothing (o : OrchOracle) (n wc : Nat) (h : 1 ≤ n) :
    (∃ lm, (NewVirshMachines o n wc).1 = .ok (lm, []) ∧ lm.length = n)
    ∨ ∃ e, (NewVirshMachines o n wc).1 = .error e := by
  by_cases h1 : o.diskDir = ""
  · exact .inr ⟨missingDiskDirMsg, by simp [NewVirshMachines, h1]⟩
  by_cases h2 : wc = 0
  case neg =>
    exact .inr ⟨"Windows not yet supported for virsh", by simp [NewVirshMachines, h1, h2]⟩
  by_cases h3 : o.statBaseOK = false
  · exact .inr ⟨"Unable to locate " ++ baseOSPath o, by simp [NewVirshMachines, h1, h2, h3]⟩
  have h3t : o.statBaseOK = true := by
    revert h3; cases o.statBaseOK <;> simp
  by_cases h4 : o.timedOut = true
  · refine .inr ⟨"Unable to create " ++ decRepr n ++ " machines within timeout", ?_⟩
    simp [NewVirshMachines, h1, h2, h3t, h4]
  have h4f : o.timedOut = false := by
    revert h4; cases o.timedOut <;> simp
  cases hg : (createGoroutine o n).1 with
  | error e =>
    exact .inr ⟨e, by simp [NewVirshMachines, h1, h2, h3t, h4f, hg]⟩
  | ok ms =>
    refine .inl ⟨ms, by simp [NewVirshMachines, h1, h2, h3t, h4f, hg], ?_⟩
    exact createSeqFrom_ok_length o n 0 ms (createGoroutine_ok_seq o n ms hg)

theorem NewVirshMachines_all_or_nothing_witness :
    (∃ lm, (NewVirshMachines c1o 1 0).1 = .ok (lm, []) ∧ lm.length = 1)
    ∨ ∃ e, (NewVirshMachines c1o 1 0).1 = .error e :=
  NewVirshMachines_all_or_nothing c1o 1 0 (by decide)

/-- C2: when the creation phase succeeded and any readiness-verification
task fails, the returned error is the first observed readiness error,
every machine in the batch receives a removal call, a failing removal is
logged, and the returned error does not depend on the removal outcomes
(removal errors are never escalated to the caller). -/
theorem NewVirshMachines_rollback (o : OrchOracle) (n : Nat) (e : Err)
    (hdisk : o.diskDir ≠ "") (hstat : o.statBaseOK = true) (htime : o.timedOut = false)
    (hsteps : ∀ j, j < n → stepErr o j = none)
    (hfail : firstSome (arrivals o) = some e) :
    (NewVirshMachines o n 0).1 = .error e
    ∧ (∀ i, i < n → OrchEvent.removeCall (machineName o.namePre o.batchId i)
        ∈ (NewVirshMachines o n 0).2)
    ∧ (∀ i er, i < n → o.removeErr (machineName o.namePre o.batchId i) = some er →
        OrchEvent.removeFailedLog (machineName o.namePre o.batchId i) er
          ∈ (NewVirshMachines o n 0).2)
    ∧ (∀ rE, (NewVirshMachines { o with removeErr := rE } n 0).1 = .error e) := by
  have hseq := createSeq_ok_all o n hsteps
  have hgo : createGoroutine o n =
      (.error e, removeAll o ((List.range n).map (mkMachine o))) := by
    simp [createGoroutine, hseq, hfail]
  have hN : NewVirshMachines o n 0 =
      (.error e, removeAll o ((List.range n).map (mkMachine o))) := by
    simp [NewVirshMachines, hdisk, hstat, htime, hgo]
  have hmem : ∀ i, i < n → mkMachine o i ∈ (List.range n).map (mkMachine o) := by
    intro i hi
    exact List.mem_map.mpr ⟨i, List.mem_range.mpr hi, rfl⟩
  refine ⟨by rw [hN], fun i hi => ?_, fun i er hi he => ?_, fun rE => ?_⟩
  · rw [hN]
    exact mem_removeAll_call o _ (mkMachine o i) (hmem i hi)
  · rw [hN]
    exact mem_removeAll_log o _ (mkMachine o i) er (hmem i hi) he
  · set o2 : OrchOracle := { o with removeErr := rE } with ho2
    have hdisk2 : o2.diskDir ≠ "" := hdisk
    have hstat2 : o2.statBaseOK = true := hstat
    have htime2 : o2.timedOut = false := htime
    have hsteps2 : ∀ j, j < n → stepErr o2 j = none := fun j hj => hsteps j hj
    have hfail2 : firstSome (arrivals o2) = some e := hfail
    have hseq2 := createSeq_ok_all o2 n hsteps2
    have hgo2 : (createGoroutine o2 n).1 = .error e := by
      simp [createGoroutine, hseq2, hfail2]
    simp [NewVirshMachines, hdisk2, hstat2, htime2, hstat, htime, hgo2]

theorem NewVirshMachines_rollback_witness :
    (NewVirshMachines c2o 2 0).1 = .error "boom"
    ∧ (∀ i, i < 2 → OrchEvent.removeCall (machineName c2o.namePre c2o.batchId i)
        ∈ (NewVirshMachines c2o 2 0).2)
    ∧ (∀ i er, i < 2 → c2o.removeErr (machineName c2o.namePre c2o.batchId i) = some er →
        OrchEvent.removeFailedLog (machineName c2o.namePre c2o.batchId i) er
          ∈ (NewVirshMachines c2o 2 0).2)
    ∧ (∀ rE, (NewVirshMachines { c2o with removeErr := rE } 2 0).1 = .error "boom") :=
  NewVirshMachines_rollback c2o 2 "boom" (by decide) rfl rfl (fun j _ => rfl) rfl

theorem joinLoop_all_ok (env : BootstrapEnv) (la token addr : String)
    (hapi : ∀ i, env.engineAPIErr i = none) (hjoin : ∀ i, env.joinErr i = none) :
    ∀ (rest : List VirshMachine) (idx : Nat),
      joinLoop env la token addr idx rest =
        (none, rest.map fun m => SwarmCall.swarmJoin m.MachineName la [addr] token) := by
  intro rest
  induction rest with
  | nil => intro idx; rfl
  | cons m rs ih =>
    intro idx
    simp [joinLoop, hapi idx, hjoin idx, ih (idx + 1)]

theorem countInitCalls_joins (la addr tok : String) (rest : List VirshMachine) :
    countInitCalls (rest.map fun m =>
      SwarmCall.swarmJoin m.MachineName la [addr] tok) = 0 := by
  induction rest with
  | nil => rfl
  | cons m rs ih =>
    simpa [countInitCalls, List.filter_cons, isInitCall] using ih

theorem countJoinCalls_joins (la addr tok : String) (rest : List VirshMachine) :
    countJoinCalls (rest.map fun m =>
      SwarmCall.swarmJoin m.MachineName la [addr] tok) = rest.length := by
  induction rest with
  | nil => rfl
  | cons m rs ih =>
    simpa [countJoinCalls, List.filter_cons, isJoinCall] using ih

/-- C3: over a nonempty ready-machine list, when every engine call
succeeds the bootstrap issues exactly one initialize call on the first
machine, then fetches the token/address snapshot exactly once
(inspect and info immediately after the initialize), and then issues
exactly one join per remaining machine in order, each carrying the
identical snapshot. -/
theorem bootstrapSwarm_trace (env : BootstrapEnv) (m0 : VirshMachine)
    (rest : List VirshMachine) (la : String)
    (hapi : ∀ i, env.engineAPIErr i = none)
    (hinit : env.swarmInitErr = none) (hinspect : env.inspectErr = none)
    (hinfo : env.infoErr = none) (hjoin : ∀ i, env.joinErr i = none) :
    bootstrapSwarm env (m0 :: rest) la =
      (none, SwarmCall.swarmInit m0.MachineName la m0.internalip
        :: SwarmCall.swarmInspect m0.MachineName
        :: SwarmCall.engineInfo m0.MachineName
        :: rest.map fun m => SwarmCall.swarmJoin m.MachineName la
             [env.remoteManagerAddr] env.workerToken)
    ∧ countInitCalls (bootstrapSwarm env (m0 :: rest) la).2 = 1
    ∧ countJoinCalls (bootstrapSwarm env (m0 :: rest) la).2 = (m0 :: rest).length - 1 := by
  have htr : bootstrapSwarm env (m0 :: rest) la =
      (none, SwarmCall.swarmInit m0.MachineName la m0.internalip
        :: SwarmCall.swarmInspect m0.MachineName
        :: SwarmCall.engineInfo m0.MachineName
        :: rest.map fun m => SwarmCall.swarmJoin m.MachineName la
             [env.remoteManagerAddr] env.workerToken) := by
    simp [bootstrapSwarm, hapi 0, hinit, hinspect, hinfo,
      joinLoop_all_ok env la env.workerToken env.remoteManagerAddr hapi hjoin rest 1]
  refine ⟨htr, ?_, ?_⟩
  · rw [htr]
    simpa [countInitCalls, List.filter_cons, isInitCall] using
      countInitCalls_joins la env.remoteManagerAddr env.workerToken rest
  · rw [htr]
    simpa [countJoinCalls, List.filter_cons, isJoinCall] using
      countJoinCalls_joins la env.remoteManagerAddr env.workerToken rest

theorem bootstrapSwarm_trace_witness :
    bootstrapSwarm c3env (c3m0 :: c3rest) "0.0.0.0:2377" =
      (none, SwarmCall.swarmInit c3m0.MachineName "0.0.0.0:2377" c3m0.internalip
        :: SwarmCall.swarmInspect c3m0.MachineName
        :: SwarmCall.engineInfo c3m0.MachineName
        :: c3rest.map fun m => SwarmCall.swarmJoin m.MachineName "0.0.0.0:2377"
             [c3env.remoteManagerAddr] c3env.workerToken)
    ∧ countInitCalls (bootstrapSwarm c3env (c3m0 :: c3rest) "0.0.0.0:2377").2 = 1
    ∧ countJoinCalls (bootstrapSwarm c3env (c3m0 :: c3rest) "0.0.0.0:2377").2
        = (c3m0 :: c3rest).length - 1 :=
  bootstrapSwarm_trace c3env c3m0 c3rest "0.0.0.0:2377"
    (fun _ => rfl) rfl rfl rfl (fun _ => rfl)

theorem waitGo_ok (p : Nat → Option Err) (i d : Nat) :
    ∀ (n : Nat), ∀ (fuel t call : Nat) (le : Option Err),
      (∀ j, j < n → (p (call + j)).isSome) → p (call + n) = none →
      t + n * i < d → n < fuel →
      waitGo p i d fuel t call le = .ok (t + n * i) := by
  intro n
  induction n with
  | zero =>
    intro fuel t call le _ hsucc hlt hfuel
    obtain ⟨f, rfl⟩ : ∃ f, fuel = f + 1 := ⟨fuel - 1, by omega⟩
    have ht : t < d := by omega
    simp only [waitGo, if_pos ht]
    rw [show call + 0 = call from rfl] at hsucc
    rw [hsucc]
    simp
  | succ n ih =>
    intro fuel t call le hfail hsucc hlt hfuel
    obtain ⟨f, rfl⟩ : ∃ f, fuel = f + 1 := ⟨fuel - 1, by omega⟩
    have ht : t < d := by
      have : n * i + i = (n + 1) * i := by rw [Nat.succ_mul]
      omega
    have h0 : (p call).isSome := by simpa using hfail 0 (Nat.succ_pos n)
    obtain ⟨e, he⟩ := Option.isSome_iff_exists.mp h0
    simp only [waitGo, if_pos ht, he]
    have hres := ih f (t + i) (call + 1) (some e)
      (fun j hj => by
        have := hfail (j + 1) (by omega)
        rwa [show call + (j + 1) = call + 1 + j by omega] at this)
      (by rwa [show call + 1 + n = call + (n + 1) by omega])
      (by rw [Nat.succ_mul] at hlt; omega)
      (by omega)
    rw [hres]
    congr 1
    rw [Nat.succ_mul]
    omega

theorem waitGo_deadline (p : Nat → Option Err) (i d : Nat) :
    ∀ (fuel : Nat), ∀ (t call : Nat) (le : Option Err),
      (∀ j, t + j * i < d → (p (call + j)).isSome) →
      ∃ e, waitGo p i d fuel t call le = .error e := by
  intro fuel
  induction fuel with
  | zero => intro t call le _; exact ⟨deadlineErr le, rfl⟩
  | succ f ih =>
    intro t call le hfail
    by_cases ht : t < d
    · have h0 : (p call).isSome := by
        simpa using hfail 0 (by simpa using ht)
      obtain ⟨e, he⟩ := Option.isSome_iff_exists.mp h0
      simp only [waitGo, if_pos ht, he]
      exact ih (t + i) (call + 1) (some e) (fun j hj => by
        have := hfail (j + 1) (by rw [Nat.succ_mul]; omega)
        rwa [show call + (j + 1) = call + 1 + j by omega] at this)
    · exact ⟨deadlineErr le, by simp only [waitGo, if_neg ht]⟩

/-- C4: with a positive interval and a predicate that first succeeds on
its k-th invocation, the convergence poller returns success at exactly
(k-1) times the interval — which is no earlier than (k-1) intervals
after the start and before the deadline — whenever that instant is
before the deadline; otherwise it returns a deadline error (the
cancellation error or the last predicate error). -/
theorem WaitForConverge_kth_call (p : Nat → Option Err) (i d k : Nat)
    (hi : 0 < i) (hk : 0 < k)
    (hfail : ∀ j, j + 1 < k → (p j).isSome)
    (hsucc : p (k - 1) = none) :
    ((k - 1) * i < d → WaitForConverge p i d = .ok ((k - 1) * i))
    ∧ (d ≤ (k - 1) * i → ∃ e, WaitForConverge p i d = .error e) := by
  constructor
  · intro hlt
    have hfuel : k - 1 < d + 1 := by
      have hle : k - 1 ≤ (k - 1) * i := Nat.le_mul_of_pos_right (k - 1) hi
      omega
    have := waitGo_ok p i d (k - 1) (d + 1) 0 0 none
      (fun j hj => by simpa using hfail j (by omega))
      (by simpa using hsucc)
      (by simpa using hlt) hfuel
    simpa [WaitForConverge] using this
  · intro hge
    refine waitGo_deadline p i d (d + 1) 0 0 none (fun j hj => ?_)
    simp only [Nat.zero_add] at hj ⊢
    have hji : j * i < (k - 1) * i := by omega
    have hjk : j < k - 1 := by
      by_contra hcon
      push_neg at hcon
      have := Nat.mul_le_mul_right i hcon
      omega
    exact hfail j (by omega)

theorem WaitForConverge_kth_call_witness :
    ((3 - 1) * 2 < 10 → WaitForConverge c4p 2 10 = .ok ((3 - 1) * 2))
    ∧ (10 ≤ (3 - 1) * 2 → ∃ e, WaitForConverge c4p 2 10 = .error e) :=
  WaitForConverge_kth_call c4p 2 10 3 (by decide) (by decide)
    (fun j hj => by simp [c4p, show j < 2 by omega])
    (by decide)

theorem data_append (a b : String) : (a ++ b).data = a.data ++ b.data := rfl

theorem dash_data : ("-" : String).data = ['-'] := rfl

theorem splitDash : ∀ (a c b d : List Char), (∀ x ∈ a, x ≠ '-') → (∀ x ∈ c, x ≠ '-') →
    a ++ '-' :: b = c ++ '-' :: d → a = c ∧ b = d := by
  intro a
  induction a with
  | nil =>
    intro c b d _ hc h
    cases c with
    | nil => simpa using h
    | cons y ys =>
      rw [List.nil_append, List.cons_append] at h
      have hy : y = '-' := (List.cons.injEq _ _ _ _ ▸ h).1.symm
      exact absurd hy (hc y (List.mem_cons_self y ys))
  | cons x xs ih =>
    intro c b d ha hc h
    cases c with
    | nil =>
      rw [List.cons_append, List.nil_append] at h
      have hx : x = '-' := (List.cons.injEq _ _ _ _ ▸ h).1
      exact absurd hx (ha x (List.mem_cons_self x xs))
    | cons y ys =>
      rw [List.cons_append, List.cons_append] at h
      have hxy := List.cons.injEq _ _ _ _ ▸ h
      obtain ⟨hxy1, hxy2⟩ := hxy
      have hrest := ih ys b d
        (fun z hz => ha z (List.mem_cons_of_mem x hz))
        (fun z hz => hc z (List.mem_cons_of_mem y hz)) hxy2
      exact ⟨by rw [hxy1, hrest.1], hrest.2⟩

theorem map_inj_on_lt (f : Nat → Char) (b : Nat)
    (hf : ∀ x, x < b → ∀ y, y < b → f x = f y → x = y) :
    ∀ (l₁ l₂ : List Nat), (∀ x ∈ l₁, x < b) → (∀ x ∈ l₂, x < b) →
      l₁.map f = l₂.map f → l₁ = l₂ := by
  intro l₁
  induction l₁ with
  | nil =>
    intro l₂ _ _ h
    cases l₂ with
    | nil => rfl
    | cons y ys => simp at h
  | cons x xs ih =>
    intro l₂ h₁ h₂ h
    cases l₂ with
    | nil => simp at h
    | cons y ys =>
      simp only [List.map_cons, List.cons.injEq] at h
      have hx := h₁ x (List.mem_cons_self x xs)
      have hy := h₂ y (List.mem_cons_self y ys)
      have hxy := hf x hx y hy h.1
      have hrest := ih ys (fun z hz => h₁ z (List.mem_cons_of_mem x hz))
        (fun z hz => h₂ z (List.mem_cons_of_mem y hz)) h.2
      rw [hxy, hrest]

theorem hexDigitChar_injOn :
    ∀ x, x < 16 → ∀ y, y < 16 → hexDigitChar x = hexDigitChar y → x = y := by decide

theorem decDigitChar_injOn :
    ∀ x, x < 10 → ∀ y, y < 10 → decDigitChar x = decDigitChar y → x = y := by decide

theorem hexDigitChar_ne_dash : ∀ x, x < 16 → hexDigitChar x ≠ '-' := by decide

theorem decDigitChar_ne_dash : ∀ x, x < 10 → decDigitChar x ≠ '-' := by decide

theorem natChars_ne_dash (b : Nat) (f : Nat → Char) (n : Nat) (hb : 1 < b)
    (hf : ∀ x, x < b → f x ≠ '-') : ∀ c ∈ natChars b f n, c ≠ '-' := by
  intro c hc
  unfold natChars at hc
  by_cases hn : n = 0
  · rw [if_pos hn] at hc
    rw [List.mem_singleton.mp hc]
    exact hf 0 (by omega)
  · rw [if_neg hn] at hc
    rw [List.mem_reverse] at hc
    obtain ⟨d, hd, rfl⟩ := List.mem_map.mp hc
    exact hf d (Nat.digits_lt_base hb hd)

theorem natChars_inj (b : Nat) (f : Nat → Char) (hb : 1 < b)
    (hf : ∀ x, x < b → ∀ y, y < b → f x = f y → x = y) :
    ∀ m n, natChars b f m = natChars b f n → m = n := by
  have key : ∀ n, n ≠ 0 → natChars b f 0 ≠ natChars b f n := by
    intro n hn hcon
    unfold natChars at hcon
    rw [if_pos rfl, if_neg hn] at hcon
    have hlen : (Nat.digits b n).length = 1 := by
      have := congrArg List.length hcon
      simpa using this.symm
    obtain ⟨d, hd⟩ := List.length_eq_one.mp hlen
    rw [hd] at hcon
    simp only [List.map_cons, List.map_nil, List.reverse_cons, List.reverse_nil,
      List.nil_append, List.cons.injEq] at hcon
    have hdb : d < b := Nat.digits_lt_base hb (by rw [hd]; exact List.mem_singleton_self d)
    have hd0 : d = 0 := (hf 0 (by omega) d hdb hcon.1).symm
    have := Nat.ofDigits_digits b n
    rw [hd, hd0] at this
    simp [Nat.ofDigits] at this
    exact hn this.symm
  intro m n h
  by_cases hm : m = 0
  · by_cases hn : n = 0
    · rw [hm, hn]
    · rw [hm] at h; exact absurd h (key n hn)
  · by_cases hn : n = 0
    · rw [hn] at h; exact absurd h.symm (key m hm)
    · unfold natChars at h
      rw [if_neg hm, if_neg hn] at h
      have hmap := List.reverse_injective h
      have hdig := map_inj_on_lt f b hf (Nat.digits b m) (Nat.digits b n)
        (fun x hx => Nat.digits_lt_base hb hx)
        (fun x hx => Nat.digits_lt_base hb hx) hmap
      have h1 := Nat.ofDigits_digits b m
      have h2 := Nat.ofDigits_digits b n
      rw [← h1, ← h2, hdig]

theorem hexUpper_inj (m n : Nat) (h : hexUpper m = hexUpper n) : m = n := by
  unfold hexUpper at h
  have hdata : natChars 16 hexDigitChar m = natChars 16 hexDigitChar n :=
    congrArg String.data h
  exact natChars_inj 16 hexDigitChar (by omega) hexDigitChar_injOn m n hdata

theorem decRepr_inj (m n : Nat) (h : decRepr m = decRepr n) : m = n := by
  unfold decRepr at h
  have hdata : natChars 10 decDigitChar m = natChars 10 decDigitChar n :=
    congrArg String.data h
  exact natChars_inj 10 decDigitChar (by omega) decDigitChar_injOn m n hdata

theorem machineName_inj (pre : String) (a i b j : Nat)
    (h : machineName pre a i = machineName pre b j) : a = b ∧ i = j := by
  have h2 := congrArg String.data h
  simp only [machineName, data_append, dash_data, List.append_assoc,
    List.singleton_append] at h2
  have h3 := List.append_cancel_left h2
  have h4 : (hexUpper a).data ++ '-' :: (decRepr i).data
      = (hexUpper b).data ++ '-' :: (decRepr j).data := by
    exact (List.cons.injEq _ _ _ _ ▸ h3).2
  have hsplit := splitDash (hexUpper a).data (hexUpper b).data
    (decRepr i).data (decRepr j).data
    (natChars_ne_dash 16 hexDigitChar a (by omega) hexDigitChar_ne_dash)
    (natChars_ne_dash 16 hexDigitChar b (by omega) hexDigitChar_ne_dash) h4
  constructor
  · exact hexUpper_inj a b (by
      apply congrArg String.mk
      exact hsplit.1)
  · exact decRepr_inj i j (by
      apply congrArg String.mk
      exact hsplit.2)

/-- C8: for every batch size, name generation from one identifier
produces pairwise-distinct names that all embed that identifier in the
fixed prefix-identifier-index shape, and two batches with distinct
identifiers share no name. -/
theorem batchNames_distinct (pre : String) (id id2 n i j : Nat) :
    (batchNames pre id n).Nodup
    ∧ (∀ s ∈ batchNames pre id n, ∃ k, k < n ∧
        s = pre ++ "-" ++ hexUpper id ++ "-" ++ decRepr k)
    ∧ (id ≠ id2 → machineName pre id i ≠ machineName pre id2 j) := by
  refine ⟨?_, ?_, ?_⟩
  · exact List.Nodup.map
      (fun x y hxy => (machineName_inj pre id x id y hxy).2)
      (List.nodup_range n)
  · intro s hs
    obtain ⟨k, hk, rfl⟩ := List.mem_map.mp hs
    exact ⟨k, List.mem_range.mp hk, rfl⟩
  · intro hne heq
    exact hne (machineName_inj pre id i id2 j heq).1

theorem batchNames_distinct_witness :
    (batchNames "e2e" 1 2).Nodup
    ∧ (∀ s ∈ batchNames "e2e" 1 2, ∃ k, k < 2 ∧
        s = "e2e" ++ "-" ++ hexUpper 1 ++ "-" ++ decRepr k)
    ∧ (1 ≠ 2 → machineName "e2e" 1 0 ≠ machineName "e2e" 2 1) :=
  batchNames_distinct "e2e" 1 2 2 0 1
